import Mathlib

/-!
Shallow embedding of the client real-time session manager
(class `WebSocketManager` in `src/lib/websocket.ts`) and of the typing-state
sweep of the presence hook (`useUserPresence`).  JavaScript runtime pieces
(the `WebSocket` object, timers, `Set` and `Map` iteration order,
`JSON.parse`) are made explicit; JavaScript idioms such as falsy defaulting
with `x || d` are translated literally.
-/

namespace WsSpec

/-- A JSON-ish scalar value, enough for the payloads the manager builds
(room assertions, heartbeat pings, application data). -/
inductive JVal where
  | num (n : Int)
  | str (s : String)
  | boolean (b : Bool)
  | null
deriving DecidableEq, Repr

/-- A JSON object: ordered association list of fields. -/
abbrev JObj := List (String × JVal)

/-- Embeds `WebSocketMessage`: the wire envelope with its optional `roomId` key
(`roomId = none` models the key being absent from the serialized object). -/
structure Frame where
  type : String
  data : JObj
  timestamp : String
  roomId : Option String
deriving DecidableEq, Repr

/-- The argument type of `send`, TypeScript
`Omit<WebSocketMessage, "timestamp">`. -/
structure MsgOut where
  type : String
  data : JObj
  roomId : Option String := none
deriving DecidableEq, Repr

/-- Embeds `WebSocketConfig`: the two numeric fields are optional in the source. -/
structure WSConfig where
  url : String
  token : String
  reconnectAttempts : Option Nat := none
  reconnectInterval : Option Nat := none
deriving DecidableEq, Repr

/-- JavaScript `v || d` applied to an optional numeric config field: both
`undefined` and `0` are falsy, so both select the default `d`. -/
def jsOrDefault (v : Option Nat) (d : Nat) : Nat :=
  match v with
  | none => d
  | some n => if n = 0 then d else n

/-- Behaviour of a registered listener callback when invoked.  Callbacks in
the source are arbitrary closures; the behaviours relevant to the
dispatcher contract are: return normally, throw, or register one further
(plain) listener for the same event via `on` and return. -/
inductive CbAct where
  | ret
  | throwErr (msg : String)
  | addListener (newId : Nat)
deriving DecidableEq, Repr

/-- A callback reference: identified by reference identity (`id`), with its
behaviour on invocation. -/
structure Cb where
  id : Nat
  act : CbAct
deriving DecidableEq, Repr

/-- Outcome of iterating the listener set for one `emit` call: ids invoked
in order, ids newly added to the set during dispatch, `console.error` log
lines from caught listener exceptions, and the final content of the set. -/
structure EmitResult where
  invoked : List Nat
  added : List Nat
  logs : List String
  finalIds : List Nat
deriving DecidableEq, Repr

/-- One pass of `Set.forEach` over a run of listeners.  `ids` is the current
content of the set (by reference identity); a callback that registers a new
listener appends it unless already present (JS `Set.add`).  Each invocation
is wrapped in try/catch, so a throwing callback only contributes a log
line and iteration continues. -/
def emitPass : List Cb → List Nat → EmitResult
  | [], ids => ⟨[], [], [], ids⟩
  | c :: rest, ids =>
    match c.act with
    | .ret =>
      let r := emitPass rest ids
      ⟨c.id :: r.invoked, r.added, r.logs, r.finalIds⟩
    | .throwErr m =>
      let r := emitPass rest ids
      ⟨c.id :: r.invoked, r.added, m :: r.logs, r.finalIds⟩
    | .addListener nid =>
      if nid ∈ ids then
        let r := emitPass rest ids
        ⟨c.id :: r.invoked, r.added, r.logs, r.finalIds⟩
      else
        let r := emitPass rest (ids ++ [nid])
        ⟨c.id :: r.invoked, nid :: r.added, r.logs, r.finalIds⟩

/-- Model of the `listeners.forEach(...)` in `emit`: JS set iteration is live — entries
appended while `forEach` runs are visited too, after all entries that were
already present (insertion order).  The second pass visits exactly the
listeners registered during the first; they were registered with plain
callbacks, so each is invoked once and adds nothing further. -/
def emitRun (cbs : List Cb) : EmitResult :=
  let p1 := emitPass cbs (cbs.map Cb.id)
  let p2 := emitPass (p1.added.map (fun nid => ⟨nid, CbAct.ret⟩)) p1.finalIds
  ⟨p1.invoked ++ p2.invoked, p1.added, p1.logs ++ p2.logs, p2.finalIds⟩

/-- The exception messages of the throwing callbacks, in listener order. -/
def thrownMsgs (cbs : List Cb) : List String :=
  cbs.filterMap (fun c =>
    match c.act with
    | .throwErr m => some m
    | _ => none)

theorem emitPass_invoked : ∀ (cbs : List Cb) (ids : List Nat),
    (emitPass cbs ids).invoked = cbs.map Cb.id
  | [], _ => rfl
  | c :: rest, ids => by
    cases hc : c.act with
    | ret => simp [emitPass, hc, emitPass_invoked rest ids]
    | throwErr m => simp [emitPass, hc, emitPass_invoked rest ids]
    | addListener nid =>
      by_cases hmem : nid ∈ ids
      · simp [emitPass, hc, hmem, emitPass_invoked rest ids]
      · simp [emitPass, hc, hmem, emitPass_invoked rest (ids ++ [nid])]

theorem emitPass_logs : ∀ (cbs : List Cb) (ids : List Nat),
    (emitPass cbs ids).logs = thrownMsgs cbs
  | [], _ => rfl
  | c :: rest, ids => by
    cases hc : c.act with
    | ret => simp [emitPass, hc, thrownMsgs, emitPass_logs rest ids, List.filterMap_cons]
    | throwErr m => simp [emitPass, hc, thrownMsgs, emitPass_logs rest ids, List.filterMap_cons]
    | addListener nid =>
      by_cases hmem : nid ∈ ids
      · simp [emitPass, hc, hmem, thrownMsgs, emitPass_logs rest ids, List.filterMap_cons]
      · simp [emitPass, hc, hmem, thrownMsgs, emitPass_logs rest (ids ++ [nid]),
          List.filterMap_cons]

theorem thrownMsgs_ret (l : List Nat) :
    thrownMsgs (l.map (fun nid => ⟨nid, CbAct.ret⟩)) = [] := by
  induction l with
  | nil => rfl
  | cons x xs ih => simp [thrownMsgs, List.filterMap_cons] at ih ⊢

theorem emitRun_invoked (cbs : List Cb) :
    (emitRun cbs).invoked = cbs.map Cb.id ++ (emitRun cbs).added := by
  simp [emitRun, emitPass_invoked, List.map_map, Function.comp_def]

theorem emitRun_logs (cbs : List Cb) :
    (emitRun cbs).logs = thrownMsgs cbs := by
  simp [emitRun, emitPass_logs, thrownMsgs_ret]

/-- The listener registry `eventListeners`: JS `Map` from event name to
`Set` of callbacks, both insertion-ordered. -/
abbrev Registry := List (String × List Cb)

def Registry.lookup : Registry → String → Option (List Cb)
  | [], _ => none
  | (e, cbs) :: rest, ev => if e = ev then some cbs else Registry.lookup rest ev

def Registry.setCbs : Registry → String → List Cb → Registry
  | [], ev, cbs => [(ev, cbs)]
  | (e, old) :: rest, ev, cbs =>
    if e = ev then (e, cbs) :: rest else (e, old) :: Registry.setCbs rest ev cbs

/-- Registration via `on(event, callback)`: create the set on first use, then
`Set.add` (a no-op for an already-present reference). -/
def Registry.addCb (reg : Registry) (ev : String) (cb : Cb) : Registry :=
  match reg with
  | [] => [(ev, [cb])]
  | (e, cbs) :: rest =>
    if e = ev then
      (e, if cbs.any (fun c => c.id == cb.id) then cbs else cbs ++ [cb]) :: rest
    else
      (e, cbs) :: Registry.addCb rest ev cb

/-- The four readyState constants of the platform `WebSocket` object. -/
inductive ReadyState where
  | CONNECTING
  | OPEN
  | CLOSING
  | CLOSED
deriving DecidableEq, Repr

/-- A physical link: `id` distinguishes successive `new WebSocket(...)`
objects of one session. -/
structure WSHandle where
  id : Nat
  readyState : ReadyState
deriving DecidableEq, Repr

/-- The mutable fields of a `WebSocketManager` instance.  `reconnectTimer`
holds the delay of a scheduled-but-not-fired reconnect; `pingTimer` whether
the heartbeat interval is running; `connectionPromise` the identity of the
stored connect promise; `nextPromiseId` a ghost counter minting promise
identities; `linksOpened` a ghost counter of physical links ever created. -/
structure Manager where
  ws : Option WSHandle := none
  maxReconnectAttempts : Nat
  reconnectInterval : Nat
  reconnectAttempts : Nat := 0
  eventListeners : Registry := []
  rooms : List String := []
  reconnectTimer : Option Nat := none
  pingTimer : Bool := false
  isConnecting : Bool := false
  connectionPromise : Option Nat := none
  nextPromiseId : Nat := 0
  linksOpened : Nat := 0
deriving DecidableEq, Repr

/-- The constructor: `config.reconnectAttempts || 5` and
`config.reconnectInterval || 1000`. -/
def mkManager (config : WSConfig) : Manager :=
  { maxReconnectAttempts := jsOrDefault config.reconnectAttempts 5
    reconnectInterval := jsOrDefault config.reconnectInterval 1000 }

/-- Embeds `this.ws && this.ws.readyState === WebSocket.OPEN`. -/
def wsOpen (m : Manager) : Bool :=
  match m.ws with
  | some ⟨_, ReadyState.OPEN⟩ => true
  | _ => false

structure ConnectResult where
  manager : Manager
  promise : Nat
  openedLink : Bool
deriving DecidableEq, Repr

/-- Embeds `connect()`.  The guard returns the stored promise
(`this.connectionPromise || Promise.resolve()`) without touching the link;
otherwise a new physical `WebSocket` is created (readyState CONNECTING),
`isConnecting` is set and a fresh promise is stored and returned. -/
def connect (m : Manager) : ConnectResult :=
  if m.isConnecting || wsOpen m then
    match m.connectionPromise with
    | some p => ⟨m, p, false⟩
    | none => ⟨{ m with nextPromiseId := m.nextPromiseId + 1 }, m.nextPromiseId, false⟩
  else
    let pid := m.nextPromiseId
    ⟨{ m with
        isConnecting := true,
        connectionPromise := some pid,
        nextPromiseId := pid + 1,
        ws := some ⟨m.linksOpened, ReadyState.CONNECTING⟩,
        linksOpened := m.linksOpened + 1 }, pid, true⟩

structure SendResult where
  frames : List Frame
  warned : Bool
deriving DecidableEq, Repr

/-- Embeds `send(message)`: if the link exists and is OPEN, exactly one frame is
written — the input with `timestamp: new Date().toISOString()` spread on
(`now` stands for the clock reading); otherwise `console.warn` and drop.
The source body has no throw on either path, which the embedding reflects
by being a total function. -/
def send (m : Manager) (msg : MsgOut) (now : String) : SendResult :=
  if wsOpen m then
    ⟨[{ type := msg.type, data := msg.data, timestamp := now, roomId := msg.roomId }], false⟩
  else
    ⟨[], true⟩

/-- JS `Set.add`: append unless present (an existing element keeps its
insertion position). -/
def addRoom (rooms : List String) (r : String) : List String :=
  if r ∈ rooms then rooms else rooms ++ [r]

/-- Embeds `joinRoom(roomId)`: `rooms.add(roomId)` then send a `room:join`
envelope (dropped on the wire when not connected). -/
def joinRoom (m : Manager) (r : String) (now : String) : Manager × List Frame :=
  let m1 := { m with rooms := addRoom m.rooms r }
  (m1, (send m1 { type := "room:join", data := [("roomId", JVal.str r)] } now).frames)

/-- Embeds `leaveRoom(roomId)`: `rooms.delete(roomId)` then send a `room:leave`
envelope. -/
def leaveRoom (m : Manager) (r : String) (now : String) : Manager × List Frame :=
  let m1 := { m with rooms := m.rooms.filter (fun x => x != r) }
  (m1, (send m1 { type := "room:leave", data := [("roomId", JVal.str r)] } now).frames)

/-- Embeds `on(event, callback)` on the manager (`on` itself is not a legal Lean
name).  The returned unsubscribe closure is not needed by the claims below
and is not modelled. -/
def onEvent (m : Manager) (ev : String) (cb : Cb) : Manager :=
  { m with eventListeners := Registry.addCb m.eventListeners ev cb }

structure EmitOutcome where
  manager : Manager
  invoked : List Nat
  logs : List String
deriving DecidableEq, Repr

/-- Embeds `emit(event, data)`: iterate the registered set with a per-callback
try/catch.  Listeners registered during the dispatch land in the set, are
visited by the same live iteration, and remain registered afterwards.
(Callback behaviour is modelled as independent of the `data` payload.) -/
def Manager.emit (m : Manager) (ev : String) : EmitOutcome :=
  match Registry.lookup m.eventListeners ev with
  | none => ⟨m, [], []⟩
  | some cbs =>
    let r := emitRun cbs
    let reg := Registry.setCbs m.eventListeners ev
      (cbs ++ r.added.map (fun nid => ⟨nid, CbAct.ret⟩))
    ⟨{ m with eventListeners := reg }, r.invoked, r.logs⟩

/-- Result of `JSON.parse` on an inbound frame: either it throws
(malformed input) or yields an envelope with a `type` and a `data`. -/
inductive ParseResult where
  | malformed (raw : String)
  | parsed (type : String) (data : JObj)
deriving DecidableEq, Repr

structure InboundOutcome where
  manager : Manager
  dispatched : List (String × JObj)
  logs : List String
deriving DecidableEq, Repr

/-- Embeds `handleMessage`: a `pong` envelope is absorbed (`return`); anything
else is forwarded to the dispatcher keyed by its `type`
(`this.emit(message.type, message.data)`). -/
def handleMessage (m : Manager) (t : String) (d : JObj) : InboundOutcome :=
  if t = "pong" then ⟨m, [], []⟩
  else
    let r := Manager.emit m t
    ⟨r.manager, [(t, d)], r.logs⟩

/-- The `onmessage` handler: `JSON.parse` inside try/catch — malformed
input is logged (`console.error`) and discarded, and the handler returns
normally so the receive loop continues. -/
def onMessage (m : Manager) (p : ParseResult) : InboundOutcome :=
  match p with
  | .malformed _ => ⟨m, [], ["Failed to parse WebSocket message"]⟩
  | .parsed t d => handleMessage m t d

structure DiscOutcome where
  manager : Manager
  emitted : List String
deriving DecidableEq, Repr

/-- Embeds `handleDisconnect()`: below the attempt ceiling, schedule a reconnect
timer with delay `this.reconnectInterval * Math.pow(2, this.reconnectAttempts)`;
at or above it, emit the local `connection:failed` event. -/
def handleDisconnect (m : Manager) : DiscOutcome :=
  if m.reconnectAttempts < m.maxReconnectAttempts then
    ⟨{ m with reconnectTimer := some (m.reconnectInterval * 2 ^ m.reconnectAttempts) }, []⟩
  else
    ⟨(Manager.emit m "connection:failed").manager, ["connection:failed"]⟩

/-- The `onclose` handler of a physical link: clears the handshake state,
stops the heartbeat interval and runs `handleDisconnect` — unconditionally,
whether or not the close was initiated by an explicit `disconnect()`. -/
def onCloseEvent (m : Manager) : DiscOutcome :=
  handleDisconnect { m with isConnecting := false, connectionPromise := none, pingTimer := false }

/-- The scheduled reconnect timer firing: the attempt counter is
incremented and `connect()` runs again.  Without a scheduled timer nothing
happens. -/
def fireReconnectTimer (m : Manager) : Manager :=
  match m.reconnectTimer with
  | none => m
  | some _ =>
    (connect { m with reconnectTimer := none,
                      reconnectAttempts := m.reconnectAttempts + 1 }).manager

structure DisconnectResult where
  manager : Manager
  closedLink : Option WSHandle
deriving DecidableEq, Repr

/-- Embeds `disconnect()`: clear the reconnect timer, stop the heartbeat interval,
close the physical link (`this.ws.close(); this.ws = null` — the platform
still delivers the link's close event to its `onclose` handler afterwards),
clear the rooms and the listener registry. -/
def disconnect (m : Manager) : DisconnectResult :=
  ⟨{ m with reconnectTimer := none, pingTimer := false, ws := none,
            rooms := [], eventListeners := [] },
   m.ws.map (fun w => { w with readyState := ReadyState.CLOSING })⟩

/-- The `onopen` handler: the link is OPEN when it runs; resets the
attempt counter, replays `joinRoom` for every room of the set in insertion
order, starts the heartbeat interval, and resolves the stored promise. -/
def onOpen (m : Manager) (now : String) : Manager × List Frame :=
  let m0 := { m with isConnecting := false,
                     reconnectAttempts := 0,
                     ws := m.ws.map (fun (w : WSHandle) => { w with readyState := ReadyState.OPEN }) }
  let res := m0.rooms.foldl
    (fun (acc : Manager × List Frame) (r : String) =>
      let j := joinRoom acc.1 r now
      (j.1, acc.2 ++ j.2))
    (m0, [])
  ({ res.1 with pingTimer := true }, res.2)

/-- A `joinRoom`/`leaveRoom` call, for reasoning about call sequences. -/
inductive RoomOp where
  | join (r : String)
  | leave (r : String)
deriving DecidableEq, Repr

/-- Apply a sequence of `joinRoom`/`leaveRoom` calls (the produced frames,
if any, are irrelevant to the room set). -/
def applyRoomOps (m : Manager) (ops : List RoomOp) (now : String) : Manager :=
  ops.foldl
    (fun mm op =>
      match op with
      | .join r => (joinRoom mm r now).1
      | .leave r => (leaveRoom mm r now).1)
    m

/-- Modelled from the spec wording of the Room Set invariant, for
comparison with the implementation: a room is a member afterwards exactly
when it was joined and not subsequently left (starting from initial
membership `init`). -/
def requestedMember (init : Bool) (ops : List RoomOp) (r : String) : Bool :=
  ops.foldl
    (fun b op =>
      match op with
      | .join x => if x = r then true else b
      | .leave x => if x = r then false else b)
    init

/-- The manager right after construction, a successful `connect()` and the
`onopen` handler, with no rooms and no listeners: the canonical connected
session used for the reconnect-loop scenarios. -/
def mkConnected (maxA ivl : Nat) : Manager :=
  { ws := some ⟨0, ReadyState.OPEN⟩,
    maxReconnectAttempts := maxA,
    reconnectInterval := ivl,
    reconnectAttempts := 0,
    eventListeners := [],
    rooms := [],
    reconnectTimer := none,
    pingTimer := true,
    isConnecting := false,
    connectionPromise := some 0,
    nextPromiseId := 1,
    linksOpened := 1 }

/-- Session state in the middle of the automatic retry loop: the last
physical link is closed, `k` attempts have been consumed and a reconnect
timer with the `k`-th backoff delay is pending. -/
def loopState (maxA ivl k links pid : Nat) : Manager :=
  { ws := some ⟨links - 1, ReadyState.CLOSED⟩,
    maxReconnectAttempts := maxA,
    reconnectInterval := ivl,
    reconnectAttempts := k,
    eventListeners := [],
    rooms := [],
    reconnectTimer := some (ivl * 2 ^ k),
    pingTimer := false,
    isConnecting := false,
    connectionPromise := none,
    nextPromiseId := pid,
    linksOpened := links }

/-- Terminal session state after the retry budget is exhausted: no timer
pending, the attempt counter at the ceiling. -/
def doneState (maxA ivl links pid : Nat) : Manager :=
  { ws := some ⟨links - 1, ReadyState.CLOSED⟩,
    maxReconnectAttempts := maxA,
    reconnectInterval := ivl,
    reconnectAttempts := maxA,
    eventListeners := [],
    rooms := [],
    reconnectTimer := none,
    pingTimer := false,
    isConnecting := false,
    connectionPromise := none,
    nextPromiseId := pid,
    linksOpened := links }

/-- One round of the automatic retry loop in which the reconnect attempt
fails: the scheduled timer fires (counter incremented, `connect` opens a
new link), the handshake fails, the link closes and the `onclose` handler
runs.  Without a pending timer, nothing happens. -/
def failRound (m : Manager) : DiscOutcome :=
  match m.reconnectTimer with
  | none => ⟨m, []⟩
  | some _ =>
    let m1 := fireReconnectTimer m
    onCloseEvent { m1 with
      ws := m1.ws.map (fun (w : WSHandle) => { w with readyState := ReadyState.CLOSED }) }

/-- Runs `n` consecutive failing retry rounds, collecting the locally emitted
events. -/
def runRounds : Nat → Manager → DiscOutcome
  | 0, m => ⟨m, []⟩
  | n + 1, m =>
    let r := failRound m
    let rest := runRounds n r.manager
    ⟨rest.manager, r.emitted ++ rest.emitted⟩

/-- The session just after the first unexpected close of the connected
manager (`onclose` of the established link). -/
def afterFirstClose (maxA ivl : Nat) : Manager :=
  (onCloseEvent { mkConnected maxA ivl with ws := some ⟨0, ReadyState.CLOSED⟩ }).manager

/-- Embeds the `useUserPresence` typing state: JS `Map` from userId to the timestamp
(milliseconds) of the last typing signal, insertion-ordered. -/
structure TypingState where
  typingUsers : List (String × Nat)
deriving DecidableEq, Repr

/-- JS `Map.set`: overwrite in place (keeping insertion position) or
append. -/
def mapSet : List (String × Nat) → String → Nat → List (String × Nat)
  | [], k, v => [(k, v)]
  | (k0, v0) :: rest, k, v =>
    if k0 = k then (k0, v) :: rest else (k0, v0) :: mapSet rest k v

/-- Handler of a `user:typing` event: `isTyping = true` sets the entry to
the current time, `isTyping = false` deletes it. -/
def applyTyping (s : TypingState) (userId : String) (isTyping : Bool) (now : Nat) : TypingState :=
  if isTyping then ⟨mapSet s.typingUsers userId now⟩
  else ⟨s.typingUsers.filter (fun e => e.1 != userId)⟩

/-- The once-per-second sweep body: rebuild the map keeping the entries
with `now.getTime() - timestamp.getTime() < 3000`.  (A negative JS
difference also compares `< 3000`; truncated `Nat` subtraction gives
`0 < 3000`, which agrees.) -/
def sweep (s : TypingState) (now : Nat) : TypingState :=
  ⟨s.typingUsers.filter (fun e => decide (now - e.2 < 3000))⟩

/-- Embeds `isUserTyping(userId)`: `typingUsers.has(userId)`. -/
def isUserTyping (s : TypingState) (userId : String) : Bool :=
  s.typingUsers.any (fun e => e.1 == userId)

/-- Embeds `getTypingUsers()`: `Array.from(typingUsers.keys())`. -/
def getTypingUsers (s : TypingState) : List String :=
  s.typingUsers.map Prod.fst

/-- The times at which the sweep interval fires inside `(t, T]`: the
interval starts when the hook mounts (time 0) and fires every 1000 ms. -/
def sweepTimes (t T : Nat) : List Nat :=
  ((List.range (T / 1000 + 1)).map (fun k => k * 1000)).filter (fun s => decide (t < s))

/-- The Typing Map at query time `T`, for a single entry set at time `t`
for user `u` and never refreshed or explicitly cleared: every sweep firing
in `(t, T]` is applied in order. -/
def typingStateAt (u : String) (t T : Nat) : TypingState :=
  (sweepTimes t T).foldl sweep ⟨[(u, t)]⟩

/-! ### Supporting lemmas -/

theorem jsOrDefault_ne_zero (v : Option Nat) (d : Nat) (hd : d ≠ 0) :
    jsOrDefault v d ≠ 0 := by
  cases v with
  | none => simpa [jsOrDefault] using hd
  | some n => by_cases h : n = 0 <;> simp [jsOrDefault, h, hd]

theorem connect_preserves_attempts (m : Manager) :
    (connect m).manager.reconnectAttempts = m.reconnectAttempts := by
  unfold connect
  split
  · split <;> rfl
  · rfl

/-! ### C1 -/

/-- C1: refuted by the code — `disconnect()` does cancel the pending
reconnect timer and stop the heartbeat interval before closing the link,
but the `onclose` handler of the deliberately-closed link still runs
`handleDisconnect`, which (attempt counter `0 < 5`) schedules a fresh
reconnect timer with delay 1000 ms.  The connected state is reached
honestly through the constructor, `connect()` and the `onopen` handler. -/
theorem claim1_disconnect_then_close_reconnects :
    (onOpen (connect (mkManager { url := "wss://x", token := "tok" })).manager "t0").1 =
      mkConnected 5 1000 ∧
    (disconnect (mkConnected 5 1000)).manager.reconnectTimer = none ∧
    (disconnect (mkConnected 5 1000)).manager.pingTimer = false ∧
    (disconnect (mkConnected 5 1000)).closedLink = some ⟨0, ReadyState.CLOSING⟩ ∧
    (onCloseEvent (disconnect (mkConnected 5 1000)).manager).manager.reconnectTimer =
      some 1000 := by
  decide

/-! ### C2 -/

/-- C2: `connect()` is idempotent.  While a connect is in flight or the
link is open, a further call returns the stored promise and the state
unchanged, opening no second link; starting from an idle state, the first
call opens exactly one physical link and a second call returns that same
pending outcome without opening another. -/
theorem claim2_connect_idempotent (m : Manager) (p : Nat)
    (hp : m.connectionPromise = some p)
    (hbusy : m.isConnecting = true ∨ wsOpen m = true) :
    connect m = ⟨m, p, false⟩ ∧
    (∀ m0 : Manager, m0.isConnecting = false → wsOpen m0 = false →
       (connect m0).openedLink = true ∧
       (connect m0).manager.linksOpened = m0.linksOpened + 1 ∧
       connect (connect m0).manager =
         ⟨(connect m0).manager, (connect m0).promise, false⟩) := by
  constructor
  · rcases hbusy with h | h <;> simp [connect, h, hp]
  · intro m0 h1 h2
    simp [connect, h1, h2]

/-- Witness for C2 at a concrete in-flight state: the manager right after
a first `connect()` from a fresh construction, plus the idle-state part at
the fresh construction itself. -/
theorem claim2_connect_idempotent_witness :
    connect (connect (mkManager { url := "u", token := "t" })).manager =
      ⟨(connect (mkManager { url := "u", token := "t" })).manager, 0, false⟩ ∧
    (connect (mkManager { url := "u", token := "t" })).openedLink = true :=
  ⟨(claim2_connect_idempotent (connect (mkManager { url := "u", token := "t" })).manager 0
      (by decide) (Or.inl (by decide))).1,
   ((claim2_connect_idempotent (connect (mkManager { url := "u", token := "t" })).manager 0
      (by decide) (Or.inl (by decide))).2 (mkManager { url := "u", token := "t" })
      rfl rfl).1⟩

/-! ### C3 -/

/-- C3: `send` while connected writes exactly one frame — the input with
the current timestamp spread on and the `roomId` key exactly as supplied
(absent stays absent); while not connected it writes zero frames, drops
the message after a warning, and (being total) raises nothing. -/
theorem claim3_send_behaviour (m : Manager) (msg : MsgOut) (now : String) :
    (wsOpen m = true →
       send m msg now =
         ⟨[{ type := msg.type, data := msg.data, timestamp := now, roomId := msg.roomId }],
          false⟩ ∧
       (msg.roomId = none →
          (send m msg now).frames =
            [{ type := msg.type, data := msg.data, timestamp := now, roomId := none }])) ∧
    (wsOpen m = false → send m msg now = ⟨[], true⟩) := by
  refine ⟨fun h => ⟨by simp [send, h], fun hr => by simp [send, h, hr]⟩, fun h => by simp [send, h]⟩

/-- Witness for C3: the round-trip frame of the spec on a connected
session, and the drop on a fresh (disconnected) one. -/
theorem claim3_send_behaviour_witness :
    send (mkConnected 5 1000) { type := "x", data := [("a", JVal.num 1)] } "2024-01-01T00:00:00.000Z" =
      ⟨[{ type := "x", data := [("a", JVal.num 1)], timestamp := "2024-01-01T00:00:00.000Z",
          roomId := none }], false⟩ ∧
    send (mkManager { url := "u", token := "t" }) { type := "x", data := [] } "ts" = ⟨[], true⟩ :=
  ⟨(claim3_send_behaviour (mkConnected 5 1000) { type := "x", data := [("a", JVal.num 1)] }
      "2024-01-01T00:00:00.000Z").1 (by decide) |>.1,
   (claim3_send_behaviour (mkManager { url := "u", token := "t" }) { type := "x", data := [] }
      "ts").2 (by decide)⟩

/-! ### C9 -/

/-- C9: a malformed inbound frame is logged and discarded with the state
untouched and the handler returning normally; a parsed `pong` envelope is
absorbed and never dispatched; every other parsed envelope is forwarded to
the dispatcher keyed by its `type` field. -/
theorem claim9_inbound_frame_handling (m : Manager) (raw t : String) (d : JObj) :
    onMessage m (ParseResult.malformed raw) =
      ⟨m, [], ["Failed to parse WebSocket message"]⟩ ∧
    onMessage m (ParseResult.parsed "pong" d) = ⟨m, [], []⟩ ∧
    (t ≠ "pong" → (onMessage m (ParseResult.parsed t d)).dispatched = [(t, d)]) := by
  refine ⟨rfl, by simp [onMessage, handleMessage], fun h => by simp [onMessage, handleMessage, h]⟩

/-- Witness for C9 at a concrete non-`pong` envelope. -/
theorem claim9_inbound_frame_handling_witness :
    (onMessage (mkConnected 5 1000)
      (ParseResult.parsed "thread:new" [("id", JVal.str "t1")])).dispatched =
      [("thread:new", [("id", JVal.str "t1")])] :=
  (claim9_inbound_frame_handling (mkConnected 5 1000) "" "thread:new"
    [("id", JVal.str "t1")]).2.2 (by decide)

/-! ### C10 -/

/-- C10: supplying `0` for `reconnectAttempts` or `reconnectInterval` hits
the falsy `||` defaulting in the constructor, so the defaults 5 and
1000 ms are silently substituted, and no configuration can produce a
zero-retry or zero-delay session. -/
theorem claim10_zero_config_falsy_defaults :
    (mkManager { url := "u", token := "t", reconnectAttempts := some 0,
                 reconnectInterval := some 0 }).maxReconnectAttempts = 5 ∧
    (mkManager { url := "u", token := "t", reconnectAttempts := some 0,
                 reconnectInterval := some 0 }).reconnectInterval = 1000 ∧
    ∀ config : WSConfig,
      (mkManager config).maxReconnectAttempts ≠ 0 ∧
      (mkManager config).reconnectInterval ≠ 0 := by
  refine ⟨rfl, rfl, fun config => ⟨?_, ?_⟩⟩
  · exact jsOrDefault_ne_zero config.reconnectAttempts 5 (by omega)
  · exact jsOrDefault_ne_zero config.reconnectInterval 1000 (by omega)

/-- Witness for C10 at the all-zero configuration. -/
theorem claim10_zero_config_falsy_defaults_witness :
    (mkManager { url := "u", token := "t", reconnectAttempts := some 0, reconnectInterval := some 0 }).maxReconnectAttempts ≠ 0 ∧
    (mkManager { url := "u", token := "t", reconnectAttempts := some 0, reconnectInterval := some 0 }).reconnectInterval ≠ 0 :=
  claim10_zero_config_falsy_defaults.2.2
    { url := "u", token := "t", reconnectAttempts := some 0, reconnectInterval := some 0 }

/-! ### C6 -/

/-- C6: a listener exception during dispatch is caught and logged, every
registered listener for the event is still invoked in the same dispatch
call, and nothing propagates out of the dispatcher (the emit outcome is a
value, with the exception reduced to a log line). -/
theorem claim6_listener_exception_isolated (m : Manager) (ev : String) (cbs : List Cb)
    (c : Cb) (msg : String)
    (hreg : Registry.lookup m.eventListeners ev = some cbs)
    (hc : c ∈ cbs) (hthrow : c.act = CbAct.throwErr msg) :
    msg ∈ (Manager.emit m ev).logs ∧
    ∀ c2 ∈ cbs, c2.id ∈ (Manager.emit m ev).invoked := by
  have hlogs : (Manager.emit m ev).logs = thrownMsgs cbs := by
    simp [Manager.emit, hreg, emitRun_logs]
  have hinv : (Manager.emit m ev).invoked = cbs.map Cb.id ++ (emitRun cbs).added := by
    simp [Manager.emit, hreg, emitRun_invoked]
  constructor
  · rw [hlogs]
    exact List.mem_filterMap.mpr ⟨c, hc, by simp [hthrow]⟩
  · intro c2 hc2
    rw [hinv]
    exact List.mem_append_left _ (List.mem_map.mpr ⟨c2, hc2, rfl⟩)

/-- Witness for C6: two listeners on one event, the first throwing; the
exception is logged and the second listener is still invoked. -/
theorem claim6_listener_exception_isolated_witness :
    "boom" ∈ (Manager.emit
      (onEvent (onEvent (mkConnected 5 1000) "thread:new" ⟨1, CbAct.throwErr "boom"⟩)
        "thread:new" ⟨2, CbAct.ret⟩) "thread:new").logs ∧
    2 ∈ (Manager.emit
      (onEvent (onEvent (mkConnected 5 1000) "thread:new" ⟨1, CbAct.throwErr "boom"⟩)
        "thread:new" ⟨2, CbAct.ret⟩) "thread:new").invoked :=
  have h := claim6_listener_exception_isolated
    (onEvent (onEvent (mkConnected 5 1000) "thread:new" ⟨1, CbAct.throwErr "boom"⟩)
      "thread:new" ⟨2, CbAct.ret⟩)
    "thread:new" [⟨1, CbAct.throwErr "boom"⟩, ⟨2, CbAct.ret⟩]
    ⟨1, CbAct.throwErr "boom"⟩ "boom" (by decide) (by decide) rfl
  ⟨h.1, h.2 ⟨2, CbAct.ret⟩ (by decide)⟩

/-! ### C7 -/

/-- A callback that registers a further listener (reference id 2) for the
same event while being dispatched. -/
def registeringCb : Cb := ⟨1, CbAct.addListener 2⟩

/-- A session with `registeringCb` as the only pre-registered listener for
`thread:new`. -/
def liveDispatchMan : Manager := onEvent (mkConnected 5 1000) "thread:new" registeringCb

/-- C7 is false on the code: `emit` iterates the listener `Set` with
`forEach`, and JS set iteration is live — a key added after iteration
begins is still visited.  With one pre-registered listener that registers
listener 2 during dispatch, listener 2 (absent from the registry snapshot
when dispatch begins) is invoked in the same emit call. -/
theorem claim7_snapshot_counterexample :
    Registry.lookup liveDispatchMan.eventListeners "thread:new" = some [registeringCb] ∧
    (2 ∉ [registeringCb].map Cb.id) ∧
    (Manager.emit liveDispatchMan "thread:new").invoked = [1, 2] := by
  decide

/-- C7 amended: the dispatcher does not snapshot the registry — a callback
registered for the event after dispatch has begun IS invoked in the same
emit call; the invocation sequence is the pre-dispatch registrations in
order followed by the listeners newly added during the dispatch. -/
theorem claim7_amended_live_dispatch (m : Manager) (ev : String) (cbs : List Cb)
    (hreg : Registry.lookup m.eventListeners ev = some cbs) :
    (Manager.emit m ev).invoked = cbs.map Cb.id ++ (emitRun cbs).added := by
  simp [Manager.emit, hreg, emitRun_invoked]

/-- Witness for the amended C7 at the concrete registering listener. -/
theorem claim7_amended_live_dispatch_witness :
    (Manager.emit liveDispatchMan "thread:new").invoked =
      [registeringCb].map Cb.id ++ (emitRun [registeringCb]).added :=
  claim7_amended_live_dispatch liveDispatchMan "thread:new" [registeringCb] (by decide)

/-! ### C8 -/

theorem sweepFold_nil : ∀ l : List Nat, l.foldl sweep ⟨[]⟩ = (⟨[]⟩ : TypingState)
  | [] => rfl
  | s :: rest => by
    have h : sweep ⟨[]⟩ s = (⟨[]⟩ : TypingState) := rfl
    simp only [List.foldl_cons, h, sweepFold_nil rest]

theorem sweepFold_drop : ∀ (l : List Nat) (u : String) (t : Nat),
    (∃ s ∈ l, t + 3000 ≤ s) → l.foldl sweep ⟨[(u, t)]⟩ = (⟨[]⟩ : TypingState)
  | [], _, _, h => by simp at h
  | s :: rest, u, t, h => by
    by_cases hs : t + 3000 ≤ s
    · have hdrop : sweep ⟨[(u, t)]⟩ s = (⟨[]⟩ : TypingState) := by
        simp [sweep]
        omega
      simp only [List.foldl_cons, hdrop, sweepFold_nil rest]
    · have hkeep : sweep ⟨[(u, t)]⟩ s = (⟨[(u, t)]⟩ : TypingState) := by
        simp [sweep]
        omega
      obtain ⟨s0, hs0mem, hs0⟩ := h
      have hs0rest : s0 ∈ rest := by
        rcases List.mem_cons.mp hs0mem with he | hr
        · exact absurd (he ▸ hs0) hs
        · exact hr
      simp only [List.foldl_cons, hkeep]
      exact sweepFold_drop rest u t ⟨s0, hs0rest, hs0⟩

/-- C8 is false as stated: with the sweep interval started at hook mount
(time 0) and the typing signal arriving at t = 100 ms, the sweeps up to
t + 3500 = 3600 ms run at 1000, 2000 and 3000 ms; at the last one the
entry is only 2900 ms old and is kept, so the user is still reported
typing at t + 3.5 s by both `isUserTyping` and `getTypingUsers`. -/
theorem claim8_absent_by_3500ms_counterexample :
    100 + 3500 = 3600 ∧
    sweepTimes 100 3600 = [1000, 2000, 3000] ∧
    isUserTyping (typingStateAt "u1" 100 3600) "u1" = true ∧
    "u1" ∈ getTypingUsers (typingStateAt "u1" 100 3600) := by
  decide

/-- C8 amended: after each sweep no entry whose age has reached 3000 ms
remains, and an entry set at time t and never refreshed or cleared is gone
from `isUserTyping` and `getTypingUsers` by t + 4.0 s (the first sweep at
age ≥ 3000 ms removes it, and consecutive sweeps are 1000 ms apart — the
claimed t + 3.5 s bound holds only for favourable sweep phases). -/
theorem claim8_amended_sweep_bound :
    (∀ (st : TypingState) (now : Nat) (p : String × Nat),
       p ∈ (sweep st now).typingUsers → now - p.2 < 3000) ∧
    (∀ (u : String) (t T : Nat), t + 4000 ≤ T →
       isUserTyping (typingStateAt u t T) u = false ∧
       getTypingUsers (typingStateAt u t T) = []) := by
  constructor
  · intro st now p hp
    have := (List.mem_filter.mp hp).2
    simpa using this
  · intro u t T hT
    have hq := Nat.div_add_mod (t + 3999) 1000
    have hr : (t + 3999) % 1000 < 1000 := Nat.mod_lt _ (by omega)
    have hk : (t + 3999) / 1000 < T / 1000 + 1 := by
      have h1 : ((t + 3999) / 1000) * 1000 ≤ T := by omega
      have h2 : (t + 3999) / 1000 ≤ T / 1000 :=
        (Nat.le_div_iff_mul_le (by omega)).mpr h1
      omega
    have hmem : ((t + 3999) / 1000) * 1000 ∈ sweepTimes t T := by
      unfold sweepTimes
      refine List.mem_filter.mpr ⟨List.mem_map.mpr ⟨(t + 3999) / 1000,
        List.mem_range.mpr hk, rfl⟩, ?_⟩
      simp only [decide_eq_true_eq]
      omega
    have hdrop := sweepFold_drop (sweepTimes t T) u t
      ⟨((t + 3999) / 1000) * 1000, hmem, by omega⟩
    constructor
    · simp [isUserTyping, typingStateAt, hdrop]
    · simp [getTypingUsers, typingStateAt, hdrop]

/-- Witness for the amended C8: the sweep invariant at a concrete kept
entry, and absence at a concrete entry time and query time 4000 ms
later. -/
theorem claim8_amended_sweep_bound_witness :
    (100 : Nat) - ("u1", (0 : Nat)).2 < 3000 ∧
    isUserTyping (typingStateAt "u1" 100 4100) "u1" = false :=
  ⟨claim8_amended_sweep_bound.1 ⟨[("u1", 0)]⟩ 100 ("u1", 0) (by decide),
   (claim8_amended_sweep_bound.2 "u1" 100 4100 (by decide)).1⟩

/-! ### C4 -/

theorem afterFirstClose_eq (maxA ivl : Nat) (h : 0 < maxA) :
    afterFirstClose maxA ivl = loopState maxA ivl 0 1 1 := by
  simp [afterFirstClose, onCloseEvent, handleDisconnect, mkConnected, loopState, h]

theorem failRound_loopState_step (maxA ivl k links pid : Nat) (h : k + 1 < maxA) :
    failRound (loopState maxA ivl k links pid) =
      ⟨loopState maxA ivl (k + 1) (links + 1) (pid + 1), []⟩ := by
  simp [failRound, loopState, fireReconnectTimer, connect, wsOpen, onCloseEvent,
        handleDisconnect, h]

theorem failRound_loopState_last (maxA ivl k links pid : Nat) (h : k + 1 = maxA) :
    failRound (loopState maxA ivl k links pid) =
      ⟨doneState maxA ivl (links + 1) (pid + 1), ["connection:failed"]⟩ := by
  simp [failRound, loopState, fireReconnectTimer, connect, wsOpen, onCloseEvent,
        handleDisconnect, doneState, Manager.emit, Registry.lookup,
        show ¬(k + 1 < maxA) by omega, h]

theorem failRound_doneState (maxA ivl links pid : Nat) :
    failRound (doneState maxA ivl links pid) = ⟨doneState maxA ivl links pid, []⟩ := by
  simp [failRound, doneState]

theorem runRounds_doneState : ∀ (n maxA ivl links pid : Nat),
    runRounds n (doneState maxA ivl links pid) = ⟨doneState maxA ivl links pid, []⟩
  | 0, _, _, _, _ => rfl
  | n + 1, maxA, ivl, links, pid => by
    simp [runRounds, failRound_doneState, runRounds_doneState n maxA ivl links pid]

theorem runRounds_loopState : ∀ (n maxA ivl k links pid : Nat),
    k < maxA → maxA - k ≤ n →
    runRounds n (loopState maxA ivl k links pid) =
      ⟨doneState maxA ivl (links + (maxA - k)) (pid + (maxA - k)), ["connection:failed"]⟩
  | 0, maxA, _, k, _, _, hk, hn => by omega
  | n + 1, maxA, ivl, k, links, pid, hk, hn => by
    by_cases hk1 : k + 1 = maxA
    · have e : maxA - k = 1 := by omega
      simp [runRounds, failRound_loopState_last maxA ivl k links pid hk1,
            runRounds_doneState n maxA ivl (links + 1) (pid + 1), e]
    · have hk1lt : k + 1 < maxA := by omega
      have ih := runRounds_loopState n maxA ivl (k + 1) (links + 1) (pid + 1)
        hk1lt (by omega)
      have e1 : links + 1 + (maxA - (k + 1)) = links + (maxA - k) := by omega
      have e2 : pid + 1 + (maxA - (k + 1)) = pid + (maxA - k) := by omega
      rw [e1, e2] at ih
      simp [runRounds, failRound_loopState_step maxA ivl k links pid hk1lt, ih]

/-- C4: on an unexpected close with attempt counter `k < max`, a reconnect
is scheduled with delay exactly `reconnectInterval * 2 ^ k` and the
counter is incremented when the timer fires; with the counter at or above
the ceiling no timer is scheduled and the local `connection:failed` event
is emitted; over any whole failing-retry trace of at least
`maxReconnectAttempts` rounds, `connection:failed` is emitted exactly
once, the final state holds no timer, and no further round schedules
one. -/
theorem claim4_backoff_and_terminal_failure :
    (∀ m : Manager, m.reconnectAttempts < m.maxReconnectAttempts →
       handleDisconnect m =
         ⟨{ m with reconnectTimer := some (m.reconnectInterval * 2 ^ m.reconnectAttempts) }, []⟩) ∧
    (∀ (m : Manager) (d : Nat), m.reconnectTimer = some d →
       (fireReconnectTimer m).reconnectAttempts = m.reconnectAttempts + 1) ∧
    (∀ m : Manager, m.maxReconnectAttempts ≤ m.reconnectAttempts →
       (handleDisconnect m).emitted = ["connection:failed"] ∧
       (handleDisconnect m).manager.reconnectTimer = m.reconnectTimer) ∧
    (∀ maxA ivl n : Nat, 0 < maxA → maxA ≤ n →
       (runRounds n (afterFirstClose maxA ivl)).emitted = ["connection:failed"] ∧
       (runRounds n (afterFirstClose maxA ivl)).manager.reconnectTimer = none ∧
       failRound (runRounds n (afterFirstClose maxA ivl)).manager =
         ⟨(runRounds n (afterFirstClose maxA ivl)).manager, []⟩) := by
  refine ⟨?_, ?_, ?_, ?_⟩
  · intro m h
    simp [handleDisconnect, h]
  · intro m d hd
    simp [fireReconnectTimer, hd, connect_preserves_attempts]
  · intro m h
    have hlt : ¬(m.reconnectAttempts < m.maxReconnectAttempts) := by omega
    refine ⟨by simp [handleDisconnect, hlt], ?_⟩
    simp only [handleDisconnect, hlt, if_false]
    cases hreg : Registry.lookup m.eventListeners "connection:failed" <;>
      simp [Manager.emit, hreg]
  · intro maxA ivl n h0 hn
    have hrun := runRounds_loopState n maxA ivl 0 1 1 h0 (by omega)
    rw [afterFirstClose_eq maxA ivl h0, hrun]
    exact ⟨rfl, rfl, failRound_doneState maxA ivl (1 + (maxA - 0)) (1 + (maxA - 0))⟩

/-- Witness for C4 with the default configuration: the scheduled delay and
counter increment at attempt 0, the terminal emission at the ceiling, and
the five failing rounds after the first unexpected close emitting
`connection:failed` exactly once. -/
theorem claim4_backoff_and_terminal_failure_witness :
    handleDisconnect (mkConnected 5 1000) =
      ⟨{ mkConnected 5 1000 with reconnectTimer := some ((mkConnected 5 1000).reconnectInterval * 2 ^ (mkConnected 5 1000).reconnectAttempts) }, []⟩ ∧
    (fireReconnectTimer (loopState 5 1000 0 1 1)).reconnectAttempts =
      (loopState 5 1000 0 1 1).reconnectAttempts + 1 ∧
    (handleDisconnect (doneState 5 1000 1 1)).emitted = ["connection:failed"] ∧
    (runRounds 5 (afterFirstClose 5 1000)).emitted = ["connection:failed"] ∧
    (runRounds 5 (afterFirstClose 5 1000)).manager.reconnectTimer = none :=
  ⟨claim4_backoff_and_terminal_failure.1 (mkConnected 5 1000) (by decide),
   claim4_backoff_and_terminal_failure.2.1 (loopState 5 1000 0 1 1) (1000 * 2 ^ 0) rfl,
   (claim4_backoff_and_terminal_failure.2.2.1 (doneState 5 1000 1 1) (by decide)).1,
   (claim4_backoff_and_terminal_failure.2.2.2 5 1000 5 (by decide) (by decide)).1,
   (claim4_backoff_and_terminal_failure.2.2.2 5 1000 5 (by decide) (by decide)).2.1⟩

/-! ### C5 -/

theorem mem_addRoom (l : List String) (x r : String) :
    r ∈ addRoom l x ↔ x = r ∨ r ∈ l := by
  by_cases h : x ∈ l
  · simp only [addRoom, if_pos h]
    exact ⟨Or.inr, fun hh => hh.elim (fun e => e ▸ h) id⟩
  · simp [addRoom, h, List.mem_append, or_comm, eq_comm]

theorem decide_mem_addRoom (l : List String) (x r : String) :
    decide (r ∈ addRoom l x) = if x = r then true else decide (r ∈ l) := by
  by_cases hxr : x = r <;> by_cases hr : r ∈ l <;> simp [mem_addRoom, hxr, hr]

theorem decide_mem_removeRoom (l : List String) (x r : String) :
    decide (r ∈ l.filter (fun s => s != x)) = if x = r then false else decide (r ∈ l) := by
  by_cases hxr : x = r
  · subst hxr
    simp [List.mem_filter]
  · have hrx : r ≠ x := fun e => hxr e.symm
    simp [List.mem_filter, bne_iff_ne, hxr, hrx]

theorem applyRoomOps_mem : ∀ (ops : List RoomOp) (m : Manager) (now r : String),
    decide (r ∈ (applyRoomOps m ops now).rooms) =
      requestedMember (decide (r ∈ m.rooms)) ops r
  | [], _, _, _ => rfl
  | RoomOp.join x :: ops, m, now, r => by
    have ih := applyRoomOps_mem ops (joinRoom m x now).1 now r
    simp only [applyRoomOps, List.foldl_cons] at ih ⊢
    rw [ih]
    simp only [requestedMember, List.foldl_cons, joinRoom, decide_mem_addRoom]
  | RoomOp.leave x :: ops, m, now, r => by
    have ih := applyRoomOps_mem ops (leaveRoom m x now).1 now r
    simp only [applyRoomOps, List.foldl_cons] at ih ⊢
    rw [ih]
    simp only [requestedMember, List.foldl_cons, leaveRoom, decide_mem_removeRoom]

/-- The `room:join` assertion produced for room `r` during replay. -/
def joinFrame (r now : String) : Frame :=
  { type := "room:join", data := [("roomId", JVal.str r)], timestamp := now, roomId := none }

theorem onOpen_fold (now : String) : ∀ (l : List String) (mm : Manager) (acc : List Frame),
    (∀ r ∈ l, r ∈ mm.rooms) → wsOpen mm = true →
    l.foldl
      (fun (acc2 : Manager × List Frame) (r : String) =>
        ((joinRoom acc2.1 r now).1, acc2.2 ++ (joinRoom acc2.1 r now).2))
      (mm, acc) =
      (mm, acc ++ l.map (fun r => joinFrame r now))
  | [], mm, acc, _, _ => by simp
  | r :: rest, mm, acc, hsub, hopen => by
    have hr : r ∈ mm.rooms := hsub r (by simp)
    have hadd : addRoom mm.rooms r = mm.rooms := by simp [addRoom, hr]
    have hm1 : (joinRoom mm r now).1 = mm := by
      show ({ mm with rooms := addRoom mm.rooms r } : Manager) = mm
      rw [hadd]
    have hopen1 : wsOpen (joinRoom mm r now).1 = true := hopen
    have hfr : (joinRoom mm r now).2 = [joinFrame r now] := by
      show (send (joinRoom mm r now).1
        { type := "room:join", data := [("roomId", JVal.str r)] } now).frames =
        [joinFrame r now]
      simp [send, hopen1, joinFrame]
    have ih := onOpen_fold now rest mm (acc ++ [joinFrame r now])
      (fun r2 h2 => hsub r2 (by simp [h2])) hopen
    simp only [List.foldl_cons, hm1, hfr] at ih ⊢
    rw [ih]
    simp

/-- C5: the Room Set after any sequence of `joinRoom`/`leaveRoom` calls,
in any connection state, contains exactly the ids joined and not
subsequently left (`requestedMember` transcribes the spec wording); and
the `onopen` replay emits exactly one `room:join` assertion per room of
the set, in insertion order, with the room set unchanged. -/
theorem claim5_room_set_and_replay :
    (∀ (ops : List RoomOp) (m : Manager) (now r : String),
       decide (r ∈ (applyRoomOps m ops now).rooms) =
         requestedMember (decide (r ∈ m.rooms)) ops r) ∧
    (∀ (m : Manager) (now : String) (w : WSHandle), m.ws = some w →
       (onOpen m now).2 = m.rooms.map (fun r => joinFrame r now) ∧
       (onOpen m now).1.rooms = m.rooms) := by
  refine ⟨applyRoomOps_mem, fun m now w hws => ?_⟩
  obtain ⟨wid, wrs⟩ := w
  have hopen0 : wsOpen { m with isConnecting := false, reconnectAttempts := 0, ws := some { id := wid, readyState := ReadyState.OPEN } } = true := rfl
  have hfold := onOpen_fold now m.rooms { m with isConnecting := false, reconnectAttempts := 0, ws := some { id := wid, readyState := ReadyState.OPEN } } [] (fun _ h => h) hopen0
  simp only [onOpen, hws, Option.map_some']
  rw [hfold]
  simp

/-- Witness for C5: a connected session joined to rooms `a` and `b`
replays exactly those two join assertions in insertion order on
reconnect. -/
theorem claim5_room_set_and_replay_witness :
    (onOpen { mkConnected 5 1000 with rooms := ["a", "b"] } "ts").2 =
      ["a", "b"].map (fun r => joinFrame r "ts") :=
  (claim5_room_set_and_replay.2 { mkConnected 5 1000 with rooms := ["a", "b"] }
    "ts" ⟨0, ReadyState.OPEN⟩ rfl).1

end WsSpec
